import Mathlib

/-!
Verification development for the `SudokuSolver` class of `sudoku.py`.

The 9x9x9 candidate cube `options_3d` (a numpy byte array) is embedded as a
function `Grid3 : Nat → Nat → Nat → Nat` read at indices below 9; the 9x9
digit array `puzzle_2d` as `Grid2`.  Python strings are embedded as
`List Char`; a Python call that returns normally is `PyResult.ret`
(with `none` standing for Python's `None`) and an uncaught exception is
`PyResult.exc`.
-/

abbrev Grid3 := Nat → Nat → Nat → Nat

abbrev Grid2 := Nat → Nat → Nat

abbrev Cell3 := Nat × Nat × Nat

/-- Sum of `f 0, …, f 8`, as a numpy sum along an axis of length 9. -/
def sum9 (f : Nat → Nat) : Nat :=
  f 0 + f 1 + f 2 + f 3 + f 4 + f 5 + f 6 + f 7 + f 8

/-- Sum of `f 0, f 1, f 2` (one side of a 3x3 box). -/
def sum3 (f : Nat → Nat) : Nat :=
  f 0 + f 1 + f 2

/-- Bounded boolean `forall`, as `np.all` of an elementwise test over `n` indices. -/
def allB (n : Nat) (f : Nat → Bool) : Bool :=
  (List.range n).all f

/-- Candidate count of cell `(r, c)`: entry of `candidate_solution.sum(axis=2)`. -/
def cellSum (o : Grid3) (r c : Nat) : Nat := sum9 (o r c)

/-- Entry `[r, d]` of `candidate_solution.sum(axis=1)` (the sum runs over columns). -/
def rowDigitSum (o : Grid3) (r d : Nat) : Nat := sum9 (fun c => o r c d)

/-- Entry `[c, d]` of `candidate_solution.sum(axis=0)` (the sum runs over rows). -/
def colDigitSum (o : Grid3) (c d : Nat) : Nat := sum9 (fun r => o r c d)

/-- Entry `d` of `candidate_solution[i:i+3, j:j+3].sum(axis=(0, 1))`. -/
def boxDigitSum (o : Grid3) (i j d : Nat) : Nat :=
  sum3 (fun a => sum3 (fun b => o (i + a) (j + b) d))

/-- The box loop of `validate_solution`: `for i in range(0, 6, 3)` and
`for j in range(0, 6, 3)` visit only the four box corners `(0,0), (0,3),
(3,0), (3,3)`; the result is `False` as soon as one visited box fails. -/
def boxesCheck (o : Grid3) : Bool :=
  ([0, 3] : List Nat).all fun i =>
    ([0, 3] : List Nat).all fun j =>
      allB 9 fun d => boxDigitSum o i j d == 1

/-- Message of the `ValueError` raised by `validate_solution` when some cell
does not hold exactly one digit. -/
def shapeErrMsg : String :=
  "Candidate solution does not contain exactly one digit on each field."

/-- Embedding of `SudokuSolver.validate_solution` on a 9x9x9 cube.  The
`TypeError`/shape `ValueError` branches are fixed by the type `Grid3`; the
one-digit-per-cell check raises (`Except.error`), the row, column and
(four-corner) box checks return `False`, otherwise `True` is returned. -/
def validate_solution (o : Grid3) : Except String Bool :=
  if allB 9 (fun r => allB 9 fun c => cellSum o r c == 1) then
    if allB 9 (fun r => allB 9 fun d => rowDigitSum o r d == 1) then
      if allB 9 (fun c => allB 9 fun d => colDigitSum o c d == 1) then
        if boxesCheck o then Except.ok true else Except.ok false
      else Except.ok false
    else Except.ok false
  else Except.error shapeErrMsg

/-- A cube is one-hot when every cell has exactly one digit bit set. -/
abbrev OneHotGrid (o : Grid3) : Prop :=
  ∀ r, r < 9 → ∀ c, c < 9 →
    ∃ d0, d0 < 9 ∧ o r c d0 = 1 ∧ ∀ d, d < 9 → d ≠ d0 → o r c d = 0

/-- First code points of the Unicode `Nd` (decimal digit) blocks: every such
block is a contiguous run of ten code points carrying the values `0..9`
(checked exhaustively against unicodedata 14.0).  The first entry, 48, is the
ASCII digit block. -/
def ndRangeStarts : List Nat :=
  [48, 1632, 1776, 1984, 2406, 2534, 2662, 2790, 2918, 3046, 3174, 3302,
   3430, 3558, 3664, 3792, 3872, 4160, 4240, 6112, 6160, 6470, 6608, 6784,
   6800, 6992, 7088, 7232, 7248, 42528, 43216, 43264, 43472, 43504, 43600,
   44016, 65296, 66720, 68912, 69734, 69872, 69942, 70096, 70384, 70736,
   70864, 71248, 71360, 71472, 71904, 72016, 72784, 73040, 73120, 92768,
   92864, 93008, 120782, 120792, 120802, 120812, 120822, 123200, 123632,
   125264, 130032]

/-- Byte conversion performed elementwise by
`np.array(list(sudoku), dtype=np.byte)`: each one-character string goes
through `int()`, which accepts exactly the Unicode decimal digits (category
`Nd`) — the ASCII digits, but also e.g. Arabic-Indic or fullwidth ones — and
raises `ValueError` on every other character. -/
def charByte (ch : Char) : Option Nat :=
  match ndRangeStarts.find? (fun b => decide (b ≤ ch.toNat ∧ ch.toNat < b + 10)) with
  | some b => some (ch.toNat - b)
  | none => none

/-- Message of the `ValueError` numpy raises on a non-digit character. -/
def fmtCharErrMsg : String := "invalid literal for int() with base 10"

/-- Message of the `ValueError` raised by `np.reshape` when the string does
not hold exactly 81 characters. -/
def fmtLenErrMsg : String := "cannot reshape array of this size into shape (9,9)"

/-- A concrete 9x9 numpy buffer, row-major nested lists. -/
abbrev Mat2 := List (List Nat)

/-- A concrete 9x9x9 numpy buffer, nested lists. -/
abbrev Mat3 := List (List (List Nat))

/-- Reading a 9x9 buffer at an index pair. -/
def readGrid2 (m : Mat2) : Grid2 :=
  fun r c => (m.getD r []).getD c 0

/-- Reading a 9x9x9 buffer at an index triple. -/
def readGrid3 (m : Mat3) : Grid3 :=
  fun r c d => ((m.getD r []).getD c []).getD d 0

/-- Tabulating the pointwise contents of `p` into a concrete 9x9 buffer:
numpy arrays are materialized data, so each array state the Python program
holds is tabulated and then read by plain indexing. -/
def tabulate2 (p : Grid2) : Mat2 :=
  (List.range 9).map fun r => (List.range 9).map fun c => p r c

/-- Tabulating the pointwise contents of `o` into a concrete 9x9x9 buffer. -/
def tabulate3 (o : Grid3) : Mat3 :=
  (List.range 9).map fun r =>
    (List.range 9).map fun c => (List.range 9).map fun d => o r c d

/-- The `puzzle_2d` array built by `_string_to_np_puzzle`: character `9*r+c`
of the input, as a byte. -/
def parsedPuzzle2d (s : List Char) : Grid2 :=
  fun r c => (charByte (s.getD (9 * r + c) '0')).getD 0

/-- The `options_3d` cube built by `_string_to_np_puzzle` from the parsed
`puzzle_2d`: a filled cell is one-hot at layer `value - 1`, a `0` cell has
its whole depth set to 1. -/
def optionsOfPuzzle (p : Grid2) : Grid3 :=
  fun r c d => if p r c = 0 then 1 else if d + 1 = p r c then 1 else 0

/-- Embedding of `SudokuSolver._string_to_np_puzzle`.  The byte conversion of
`np.array(list(sudoku), dtype=np.byte)` runs first (so a bad character —
including `'.'` — raises before the length is looked at), then `np.reshape`
requires exactly 81 entries; both produced arrays are concrete buffers. -/
def string_to_np_puzzle (s : List Char) : Except String (Mat2 × Mat3) :=
  if s.any (fun ch => (charByte ch).isNone) then Except.error fmtCharErrMsg
  else if s.length ≠ 81 then Except.error fmtLenErrMsg
  else
    let pm := tabulate2 (parsedPuzzle2d s)
    Except.ok (pm, tabulate3 (optionsOfPuzzle (readGrid2 pm)))

/-- First index attaining the maximum of `o r c` over digits `0..8`, as
`np.argmax(axis=2)` (ties keep the earlier index). -/
def argmaxD (o : Grid3) (r c : Nat) : Nat :=
  (List.range 9).foldl (fun best d => if o r c best < o r c d then d else best) 0

/-- Embedding of `_np_puzzle_to_string`: digit `argmax + 1` of each cell,
flattened in row-major order and rendered as characters. -/
def np_puzzle_to_string (o : Grid3) : List Char :=
  (List.range 81).map fun i => Char.ofNat (48 + (argmaxD o (i / 9) (i % 9) + 1))

/-- Whether a parse result is a success. -/
def isOkB (e : Except String (Mat2 × Mat3)) : Bool :=
  match e with
  | Except.ok _ => true
  | Except.error _ => false

/-- The itertools.product enumeration `itertools.product(*iterables)`:
lexicographic with the rightmost factor advancing fastest.  An empty factor
makes the whole product empty at once (itertools yields nothing), and the
tail product is shared across the elements of the head factor; the value is
the same as the naive `l.flatMap fun x => (pyProduct ls).map (x :: ·)`. -/
def pyProduct {α : Type} : List (List α) → List (List α)
  | [] => [[]]
  | [] :: _ => []
  | l :: ls =>
    let rest := pyProduct ls
    l.flatMap fun x => rest.map fun t => x :: t

/-- The pairs yielded for one non-first combination of
`_unique_combinations`: `(p, c)` for the positions where the new combination
`comb` differs from `prev_comb`, in position order
(`tuple((p, c) for c, p in zip(comb, prev_comb) if c != p)`). -/
def diffPairs {α : Type} [DecidableEq α] (prev comb : List α) : List (α × α) :=
  (comb.zip prev).filterMap fun cp => if cp.1 ≠ cp.2 then some (cp.2, cp.1) else none

/-- Deltas of successive combinations, each diffed against its immediate
predecessor. -/
def deltasFrom {α : Type} [DecidableEq α] : List α → List (List α) → List (List (α × α))
  | _, [] => []
  | prev, comb :: rest => diffPairs prev comb :: deltasFrom comb rest

/-- Embedding of the generator `SudokuSolver._unique_combinations`: the first
yield is `tuple((None, c) for c in comb)` for the first combination, each
later yield diffs against the previous combination.  When the product is
empty, `next(combinations)` raises `StopIteration` inside the generator body,
which PEP 479 turns into a `RuntimeError` at the first `next(generator)`:
that is the `none` case. -/
def uniqueCombinations {α : Type} [DecidableEq α] (ls : List (List α)) :
    Option (List (Option α × α) × List (List (α × α))) :=
  match pyProduct ls with
  | [] => none
  | c0 :: rest => some (c0.map fun x => (none, x), deltasFrom c0 rest)

/-- Positional replay of one delta: walk the previous assignment and, where
the head retraction matches the value at the current position, substitute the
new value.  This is how `solve` consumes the pairs: each pair retracts
`idx[0]` and sets `idx[1]` in the cube, the cell being identified by the
value itself. -/
def applyDelta {α : Type} [DecidableEq α] : List α → List (α × α) → List α
  | [], _ => []
  | x :: xs, [] => x :: xs
  | x :: xs, (p, c) :: ds =>
    if x = p then c :: applyDelta xs ds else x :: applyDelta xs ((p, c) :: ds)

/-- Effect of the loop body run for one known cell `(r, c)` holding digit
layer `d`: on `options_3d[:, :, d]` the row `r`, the column `c` and the box
of `(r, c)` are zeroed, then the cell itself is set back to 1. -/
def processCell (o : Grid3) (r c d : Nat) : Grid3 :=
  fun r2 c2 d2 =>
    if d2 = d then
      if r2 = r ∧ c2 = c then 1
      else if r2 = r ∨ c2 = c ∨ (r2 / 3 = r / 3 ∧ c2 / 3 = c / 3) then 0
      else o r2 c2 d2
    else o r2 c2 d2

/-- The `known_cells` list: positions with a nonzero entry of `puzzle_2d`,
with their value, in row-major `np.nditer` order. -/
def knownCells (p : Grid2) : List Cell3 :=
  (List.range 9).flatMap fun r =>
    (List.range 9).filterMap fun c =>
      if p r c ≠ 0 then some (r, c, p r c) else none

/-- One full pass of the `while True` body of `solve` over `known_cells`,
mutating the cube cell by cell. -/
def propagatePass (o : Grid3) (p : Grid2) : Grid3 :=
  (knownCells p).foldl (fun acc t => processCell acc t.1 t.2.1 (t.2.2 - 1)) o

/-- Recomputation of `puzzle_2d` after a pass:
`puzzle_2d = options_3d.argmax(axis=2) + 1` then
`puzzle_2d[options_3d.sum(axis=2) != 1] = 0`. -/
def updatePuzzle (o : Grid3) : Grid2 :=
  fun r c => if cellSum o r c = 1 then argmaxD o r c + 1 else 0

/-- The `np.all(puzzle_2d == prev_puzzle_2d)` test. -/
def grid2Eq (p q : Grid2) : Bool :=
  allB 9 fun r => allB 9 fun c => p r c == q r c

/-- The `puzzle_2d.sum()` value. -/
def grid2Sum (p : Grid2) : Nat :=
  sum9 fun r => sum9 fun c => p r c

/-- Result of the propagation loop of `solve`: an early-solved string
(`puzzle_2d.sum() == 9*45`), or the state at the fixed point
(`np.all(puzzle_2d == prev_puzzle_2d)`). -/
inductive LoopRes where
  | solved : List Char → LoopRes
  | fixedPt : Mat3 → Mat2 → LoopRes
  | fuelOut : LoopRes

/-- The `while True` loop of `solve`, carrying the two concrete array
buffers.  The fuel only bounds the recursion for totality: the loop strictly
shrinks the cube whenever it does not exit, so 730 passes can never be
reached, and 1000 units are ample for every run considered here. -/
def propLoop (fuel : Nat) (o : Mat3) (p : Mat2) : LoopRes :=
  match fuel with
  | 0 => LoopRes.fuelOut
  | Nat.succ fuel2 =>
    let o2 := tabulate3 (propagatePass (readGrid3 o) (readGrid2 p))
    let p2 := tabulate2 (updatePuzzle (readGrid3 o2))
    if grid2Eq (readGrid2 p2) (readGrid2 p) then LoopRes.fixedPt o2 p2
    else if grid2Sum (readGrid2 p2) = 405 then
      LoopRes.solved (np_puzzle_to_string (readGrid3 o2))
    else propLoop fuel2 o2 p2

/-- Signed 64-bit reading of a natural number, as numpy int64 wraparound. -/
def int64OfNat (n : Nat) : Int :=
  if n % 2 ^ 64 < 2 ^ 63 then ((n % 2 ^ 64 : Nat) : Int)
  else ((n % 2 ^ 64 : Nat) : Int) - 2 ^ 64

/-- Exact product of the 81 per-cell candidate counts, row-major. -/
def prodCellSums (o : Grid3) : Nat :=
  ((List.range 81).map fun i => cellSum o (i / 9) (i % 9)).foldl (fun a b => a * b) 1

/-- The `num_possibilities = options_3d.sum(axis=2).prod()` value: the sums
promote the byte cube to int64, and `.prod()` accumulates in int64 with
silent wraparound, so the Python-visible value is the signed 64-bit reading
of the exact product. -/
def machineCountI (o : Grid3) : Int := int64OfNat (prodCellSums o)

/-- Message of the `ValueError` raised by `np.nditer` on a zero-sized
operand (the `zerosize_ok` flag is not set). -/
def ndIterErrMsg : String := "ValueError: Iteration of zero-sized operands is not enabled"

/-- The cells with `puzzle_2d == 0`, in row-major `np.nditer` order. -/
def unknownCells (p : Grid2) : List (Nat × Nat) :=
  (List.range 9).flatMap fun r =>
    (List.range 9).filterMap fun c => if p r c = 0 then some (r, c) else none

/-- Inner step of the `options_idx` comprehension: for each unknown cell its
`(row, column, digit)` candidate triples from
`np.where(options_3d[row, column, :] == 1)[0]`; `np.nditer` over that array
raises `ValueError` at construction when it is zero-sized, aborting the
whole comprehension at the first empty cell. -/
def optionsIdxCells (o : Grid3) : List (Nat × Nat) → Except String (List (List Cell3))
  | [] => Except.ok []
  | rc :: rest =>
    let l := (List.range 9).filterMap fun d =>
      if o rc.1 rc.2 d = 1 then some (rc.1, rc.2, d) else none
    if l.isEmpty then Except.error ndIterErrMsg
    else
      match optionsIdxCells o rest with
      | Except.error m => Except.error m
      | Except.ok ls => Except.ok (l :: ls)

/-- The `options_idx` construction before the search: the candidate triples
of every unknown cell, or the `np.nditer` `ValueError` if any unknown cell
has an empty candidate row. -/
def optionsIdx (o : Grid3) (p : Grid2) : Except String (List (List Cell3)) :=
  optionsIdxCells o (unknownCells p)

/-- Single cube write `options_3d[r, c, d] = v`. -/
def writeBit (o : Grid3) (t : Cell3) (v : Nat) : Grid3 :=
  fun r c d => if r = t.1 ∧ c = t.2.1 ∧ d = t.2.2 then v else o r c d

/-- The setup write for one triple of the first combination:
`options_3d[r, c, :] = 0` then `options_3d[r, c, d] = 1`. -/
def setCellOneHot (o : Grid3) (t : Cell3) : Grid3 :=
  fun r c d => if r = t.1 ∧ c = t.2.1 then (if d = t.2.2 then 1 else 0) else o r c d

/-- Applying the first yielded element: one `setCellOneHot` per `(None, c)`
pair. -/
def applyAssign (o : Grid3) (first : List (Option Cell3 × Cell3)) : Grid3 :=
  first.foldl (fun acc pc => setCellOneHot acc pc.2) o

/-- Applying one later delta: `options_3d[*idx[0]] = 0` then
`options_3d[*idx[1]] = 1` for each pair. -/
def applyChanges (o : Grid3) (chg : List (Cell3 × Cell3)) : Grid3 :=
  chg.foldl (fun acc pc => writeBit (writeBit acc pc.1 0) pc.2 1) o

/-- Outcome of a Python call: a normal return (possibly `None`) or an
uncaught exception. -/
inductive PyResult where
  | ret : Option (List Char) → PyResult
  | exc : String → PyResult
deriving DecidableEq

/-- Message of the PEP 479 `RuntimeError` raised when the generator body's
own `next(combinations)` hits `StopIteration`. -/
def pep479Msg : String := "RuntimeError: generator raised StopIteration"

/-- The `for changes in generator` loop of `solve`: apply each delta to the
cube buffer, return the string on the first cube that validates, propagate a
raised error, and fall off the end of the function (returning `None`) on
exhaustion. -/
def searchRest (o : Mat3) : List (List (Cell3 × Cell3)) → PyResult
  | [] => PyResult.ret none
  | chg :: rest =>
    let o2 := tabulate3 (applyChanges (readGrid3 o) chg)
    match validate_solution (readGrid3 o2) with
    | Except.error m => PyResult.exc m
    | Except.ok true => PyResult.ret (some (np_puzzle_to_string (readGrid3 o2)))
    | Except.ok false => searchRest o2 rest

/-- The brute-force phase of `solve`: build the generator, apply the first
combination and validate it, then consume the remaining deltas.  The `none`
case is the PEP 479 `RuntimeError` the first `next(generator)` would raise
on an empty product; `solve` can no longer reach it, since an empty factor
already raises inside the `options_idx` construction. -/
def searchPhase (o : Mat3) (lists : List (List Cell3)) : PyResult :=
  match uniqueCombinations lists with
  | none => PyResult.exc pep479Msg
  | some (first, deltas) =>
    let o1 := tabulate3 (applyAssign (readGrid3 o) first)
    match validate_solution (readGrid3 o1) with
    | Except.error m => PyResult.exc m
    | Except.ok true => PyResult.ret (some (np_puzzle_to_string (readGrid3 o1)))
    | Except.ok false => searchRest o1 deltas

/-- The tail of `solve` after the propagation loop exits at a fixed point:
the `num_possibilities == 1` early return, the
`num_possibilities >= max_iterations or num_possibilities < 0` abort
(returning `None`), then the `options_idx` construction (whose `np.nditer`
`ValueError` propagates) and the brute-force phase. -/
def solveCore (o : Mat3) (p : Mat2) (maxIterations : Int) : PyResult :=
  if machineCountI (readGrid3 o) = 1 then
    PyResult.ret (some (np_puzzle_to_string (readGrid3 o)))
  else if machineCountI (readGrid3 o) ≥ maxIterations ∨
      machineCountI (readGrid3 o) < 0 then PyResult.ret none
  else
    match optionsIdx (readGrid3 o) (readGrid2 p) with
    | Except.error m => PyResult.exc m
    | Except.ok lists => searchPhase o lists

/-- Embedding of `SudokuSolver.solve`: parse (exceptions propagate), run the
propagation loop, then the post-propagation tail. -/
def solve (s : List Char) (maxIterations : Int) : PyResult :=
  match string_to_np_puzzle s with
  | Except.error m => PyResult.exc m
  | Except.ok (p, o) =>
    match propLoop 1000 o p with
    | LoopRes.solved str => PyResult.ret (some str)
    | LoopRes.fuelOut => PyResult.exc "model: fuel exhausted"
    | LoopRes.fixedPt o2 p2 => solveCore o2 p2 maxIterations

/-- The state `(options_3d, puzzle_2d)` of a `solve` run at the moment the
propagation loop breaks at a fixed point (if it does). -/
def postPropState (s : List Char) : Option (Mat3 × Mat2) :=
  match string_to_np_puzzle s with
  | Except.error _ => none
  | Except.ok (p, o) =>
    match propLoop 1000 o p with
    | LoopRes.fixedPt o2 p2 => some (o2, p2)
    | _ => none

/-- The machine combination count at the post-propagation state. -/
def postPropCount (s : List Char) : Int :=
  match postPropState s with
  | some (o, _) => machineCountI (readGrid3 o)
  | none => 0

/-- Example cube: the Latin square `digit(r, c) = (r + c) % 9` as a one-hot
cube; rows and columns are fine but box `(0, 0)` holds digit index 2 three
times. -/
def gEx : Grid3 := fun r c d => if d = (r + c) % 9 then 1 else 0

/-- All-zero cube: every cell has zero digits set (malformed). -/
def zeroGrid : Grid3 := fun _ _ _ => 0

/-- One-hot cube whose first row holds digit index 0 nine times (row
uniqueness violated), with the `gEx` Latin square on the other rows. -/
def rowDupGrid : Grid3 :=
  fun r c d => if r = 0 then (if d = 0 then 1 else 0) else gEx r c d

/-- Unsatisfiable input: two `1`s in row 0 (cells `(0,0)` and `(0,1)`),
everything else unknown. -/
def c2input : List Char := '1' :: '1' :: List.replicate 79 '0'

/-- Unsatisfiable input: two `2`s in row 5 (cells `(5,0)` and `(5,1)`). -/
def c3input : List Char := List.replicate 45 '0' ++ '2' :: '2' :: List.replicate 34 '0'

/-- Unsatisfiable input: two `3`s in column 0 (cells `(0,0)` and `(1,0)`). -/
def c10input : List Char := '3' :: (List.replicate 8 '0' ++ '3' :: List.replicate 71 '0')

/-- A complete valid Sudoku grid as an 81-character input,
`digit(r, c) = (3*(r % 3) + r / 3 + c) % 9 + 1`. -/
def solvedChars : List Char :=
  (List.range 81).map fun i =>
    Char.ofNat (48 + ((3 * ((i / 9) % 3) + (i / 9) / 3 + i % 9) % 9 + 1))

/-- The all-zero puzzle array. -/
def pZero : Grid2 := fun _ _ => 0

/-- Cube with cell `(0, 0)` holding two candidates and every other cell
one-hot: exact combination count 2. -/
def gateGrid : Grid3 :=
  fun r c d =>
    if r = 0 ∧ c = 0 then (if d < 2 then 1 else 0) else (if d = 0 then 1 else 0)

/-- Cube whose first 21 cells hold 8 candidates each and whose other cells
are one-hot: exact combination count `8^21 = 2^63`, which the int64 product
wraps to the negative value `-2^63`. -/
def wrapGrid : Grid3 :=
  fun r c d =>
    if 9 * r + c < 21 then (if d < 8 then 1 else 0) else (if d = 0 then 1 else 0)

/-- All-ones cube: every cell holds all nine candidates. -/
def onesGrid : Grid3 := fun _ _ _ => 1

/-- Puzzle array marking only cell `(0, 0)` as known (digit 1). -/
def pOneKnown : Grid2 := fun r c => if r = 0 ∧ c = 0 then 1 else 0

/-- The all-blank 81-character input. -/
def zeros81 : List Char := List.replicate 81 '0'

/-- The `puzzle_2d` buffer parsed from the all-blank input. -/
def zeros81pm : Mat2 := tabulate2 (parsedPuzzle2d zeros81)

/-- The `options_3d` buffer parsed from the all-blank input. -/
def zeros81om : Mat3 := tabulate3 (optionsOfPuzzle (readGrid2 zeros81pm))

/-- Candidate count of one cell at the post-propagation state of a `solve`
run (999 when the run does not reach a fixed point). -/
def postPropCell (s : List Char) (r c : Nat) : Nat :=
  match postPropState s with
  | some (o, _) => cellSum (readGrid3 o) r c
  | none => 999

lemma allB_eq_true_iff {n : Nat} {f : Nat → Bool} :
    allB n f = true ↔ ∀ i, i < n → f i = true := by
  simp [allB, List.all_eq_true, List.mem_range]

lemma cellSum_of_oneHot {o : Grid3} {r c d0 : Nat} (hd0 : d0 < 9)
    (h1 : o r c d0 = 1) (h0 : ∀ d, d < 9 → d ≠ d0 → o r c d = 0) :
    cellSum o r c = 1 := by
  have e0 := fun h => h0 0 (by omega) h
  have e1 := fun h => h0 1 (by omega) h
  have e2 := fun h => h0 2 (by omega) h
  have e3 := fun h => h0 3 (by omega) h
  have e4 := fun h => h0 4 (by omega) h
  have e5 := fun h => h0 5 (by omega) h
  have e6 := fun h => h0 6 (by omega) h
  have e7 := fun h => h0 7 (by omega) h
  have e8 := fun h => h0 8 (by omega) h
  interval_cases d0 <;>
    simp_all [cellSum, sum9]

/-- A band of three horizontally adjacent boxes covers the same cells as its
three rows. -/
lemma band_sum (o : Grid3) (i d : Nat) :
    boxDigitSum o i 0 d + boxDigitSum o i 3 d + boxDigitSum o i 6 d
      = rowDigitSum o i d + rowDigitSum o (i + 1) d + rowDigitSum o (i + 2) d := by
  simp only [boxDigitSum, rowDigitSum, sum3, sum9]
  norm_num
  ring

/-- A stack of three vertically adjacent boxes covers the same cells as its
three columns. -/
lemma stack_sum (o : Grid3) (j d : Nat) :
    boxDigitSum o 0 j d + boxDigitSum o 3 j d + boxDigitSum o 6 j d
      = colDigitSum o j d + colDigitSum o (j + 1) d + colDigitSum o (j + 2) d := by
  simp only [boxDigitSum, colDigitSum, sum3, sum9]
  norm_num
  ring

/-- Counting argument behind the four-corner box check (the MathOverflow
criterion cited in the source): if every row and every column holds digit `d`
exactly once and the four corner boxes hold it exactly once, then all nine
boxes hold it exactly once. -/
lemma boxes_all_one (o : Grid3) (d : Nat)
    (hrow : ∀ r, r < 9 → rowDigitSum o r d = 1)
    (hcol : ∀ c, c < 9 → colDigitSum o c d = 1)
    (h00 : boxDigitSum o 0 0 d = 1) (h03 : boxDigitSum o 0 3 d = 1)
    (h30 : boxDigitSum o 3 0 d = 1) (h33 : boxDigitSum o 3 3 d = 1) :
    ∀ i, (i = 0 ∨ i = 3 ∨ i = 6) → ∀ j, (j = 0 ∨ j = 3 ∨ j = 6) →
      boxDigitSum o i j d = 1 := by
  have r0 := hrow 0 (by omega)
  have r1 := hrow 1 (by omega)
  have r2 := hrow 2 (by omega)
  have r3 := hrow 3 (by omega)
  have r4 := hrow 4 (by omega)
  have r5 := hrow 5 (by omega)
  have r6 := hrow 6 (by omega)
  have r7 := hrow 7 (by omega)
  have r8 := hrow 8 (by omega)
  have c0 := hcol 0 (by omega)
  have c1 := hcol 1 (by omega)
  have c2 := hcol 2 (by omega)
  have c3 := hcol 3 (by omega)
  have c4 := hcol 4 (by omega)
  have c5 := hcol 5 (by omega)
  have b0 := band_sum o 0 d
  have b3 := band_sum o 3 d
  have b6 := band_sum o 6 d
  have s0 := stack_sum o 0 d
  have s3 := stack_sum o 3 d
  norm_num at b0 b3 b6 s0 s3
  intro i hi j hj
  rcases hi with rfl | rfl | rfl <;> rcases hj with rfl | rfl | rfl <;> omega

/-- C1: on a well-formed one-hot cube, a duplicated digit in any of the nine
boxes (corners `i, j ∈ {0, 3, 6}`) forces `validate_solution` to return
`False`: either a row, column or corner-box check fails directly, or the
counting argument shows the situation is impossible. -/
theorem c1_box_duplicate_rejected (o : Grid3) (h : OneHotGrid o)
    (i j d : Nat) (hi : i = 0 ∨ i = 3 ∨ i = 6) (hj : j = 0 ∨ j = 3 ∨ j = 6)
    (hd : d < 9) (hdup : 2 ≤ boxDigitSum o i j d) :
    validate_solution o = Except.ok false := by
  have hcell : (allB 9 fun r => allB 9 fun c => cellSum o r c == 1) = true := by
    rw [allB_eq_true_iff]
    intro r hr
    rw [allB_eq_true_iff]
    intro c hc
    obtain ⟨d0, hd0, h1, h0⟩ := h r hr c hc
    simp [cellSum_of_oneHot hd0 h1 h0]
  by_cases hrow : (allB 9 fun r => allB 9 fun d => rowDigitSum o r d == 1) = true
  · by_cases hcol : (allB 9 fun c => allB 9 fun d => colDigitSum o c d == 1) = true
    · have hrow' : ∀ r, r < 9 → rowDigitSum o r d = 1 := by
        simp only [allB_eq_true_iff, beq_iff_eq] at hrow
        exact fun r hr => hrow r hr d hd
      have hcol' : ∀ c, c < 9 → colDigitSum o c d = 1 := by
        simp only [allB_eq_true_iff, beq_iff_eq] at hcol
        exact fun c hc => hcol c hc d hd
      by_cases hbox : boxesCheck o = true
      · exfalso
        simp only [boxesCheck, List.all_cons, List.all_nil, Bool.and_true,
          Bool.and_eq_true, allB_eq_true_iff, beq_iff_eq] at hbox
        obtain ⟨⟨hb00, hb03⟩, hb30, hb33⟩ := hbox
        have hall := boxes_all_one o d hrow' hcol'
          (hb00 d hd) (hb03 d hd) (hb30 d hd) (hb33 d hd) i hi j hj
        omega
      · simp [validate_solution, hcell, hrow, hcol, hbox]
    · simp [validate_solution, hcell, hrow, hcol]
  · simp [validate_solution, hcell, hrow]

/-- Witness for C1 at the concrete cube `gEx`. -/
theorem c1_box_duplicate_rejected_witness :
    OneHotGrid gEx ∧ 2 ≤ boxDigitSum gEx 0 0 2 ∧
      validate_solution gEx = Except.ok false :=
  ⟨by decide, by decide,
    c1_box_duplicate_rejected gEx (by decide) 0 0 2 (Or.inl rfl) (Or.inl rfl)
      (by decide) (by decide)⟩

/-- C6: a cube in which some cell does not hold exactly one digit makes
`validate_solution` raise (the shape `ValueError`), before any legality
check and distinctly from the boolean result; a structurally well-formed
cube violating row, column or box uniqueness yields `False` and never
raises. -/
theorem c6_shape_error_vs_false (o : Grid3) :
    ((∃ r, r < 9 ∧ ∃ c, c < 9 ∧ cellSum o r c ≠ 1) →
        validate_solution o = Except.error shapeErrMsg)
    ∧ ((∀ r, r < 9 → ∀ c, c < 9 → cellSum o r c = 1) →
        ((∃ r, r < 9 ∧ ∃ d, d < 9 ∧ rowDigitSum o r d ≠ 1) ∨
         (∃ c, c < 9 ∧ ∃ d, d < 9 ∧ colDigitSum o c d ≠ 1) ∨
         (∃ i, (i = 0 ∨ i = 3 ∨ i = 6) ∧ ∃ j, (j = 0 ∨ j = 3 ∨ j = 6) ∧
            ∃ d, d < 9 ∧ boxDigitSum o i j d ≠ 1)) →
        validate_solution o = Except.ok false) := by
  constructor
  · rintro ⟨r, hr, c, hc, hne⟩
    have hcellF : (allB 9 fun r => allB 9 fun c => cellSum o r c == 1) = false := by
      rw [Bool.eq_false_iff]
      intro hal
      simp only [allB_eq_true_iff, beq_iff_eq] at hal
      exact hne (hal r hr c hc)
    simp [validate_solution, hcellF]
  · intro hcell hv
    have hcellT : (allB 9 fun r => allB 9 fun c => cellSum o r c == 1) = true := by
      simp only [allB_eq_true_iff, beq_iff_eq]
      exact hcell
    rcases hv with ⟨r, hr, d, hd, hne⟩ | ⟨c, hc, d, hd, hne⟩ | ⟨i, hi, j, hj, d, hd, hne⟩
    · have hrowF : (allB 9 fun r => allB 9 fun d => rowDigitSum o r d == 1) = false := by
        rw [Bool.eq_false_iff]
        intro hal
        simp only [allB_eq_true_iff, beq_iff_eq] at hal
        exact hne (hal r hr d hd)
      simp [validate_solution, hcellT, hrowF]
    · by_cases hrow : (allB 9 fun r => allB 9 fun d => rowDigitSum o r d == 1) = true
      · have hcolF : (allB 9 fun c => allB 9 fun d => colDigitSum o c d == 1) = false := by
          rw [Bool.eq_false_iff]
          intro hal
          simp only [allB_eq_true_iff, beq_iff_eq] at hal
          exact hne (hal c hc d hd)
        simp [validate_solution, hcellT, hrow, hcolF]
      · simp [validate_solution, hcellT, hrow]
    · by_cases hrow : (allB 9 fun r => allB 9 fun d => rowDigitSum o r d == 1) = true
      · by_cases hcol : (allB 9 fun c => allB 9 fun d => colDigitSum o c d == 1) = true
        · have hboxF : boxesCheck o = false := by
            rw [Bool.eq_false_iff]
            intro hbox
            simp only [allB_eq_true_iff, beq_iff_eq] at hrow hcol
            simp only [boxesCheck, List.all_cons, List.all_nil, Bool.and_true,
              Bool.and_eq_true, allB_eq_true_iff, beq_iff_eq] at hbox
            obtain ⟨⟨hb00, hb03⟩, hb30, hb33⟩ := hbox
            exact hne (boxes_all_one o d (fun r hr => hrow r hr d hd)
              (fun c hc => hcol c hc d hd)
              (hb00 d hd) (hb03 d hd) (hb30 d hd) (hb33 d hd) i hi j hj)
          simp [validate_solution, hcellT, hrow, hcol, hboxF]
        · simp [validate_solution, hcellT, hrow, hcol]
      · simp [validate_solution, hcellT, hrow]

/-- Witness for C6: a malformed cube raises, a well-formed row violation
returns `False`. -/
theorem c6_shape_error_vs_false_witness :
    validate_solution zeroGrid = Except.error shapeErrMsg ∧
      validate_solution rowDupGrid = Except.ok false :=
  ⟨(c6_shape_error_vs_false zeroGrid).1 ⟨0, by omega, 0, by omega, by decide⟩,
    (c6_shape_error_vs_false rowDupGrid).2 (by decide)
      (Or.inl ⟨0, by omega, 0, by omega, by decide⟩)⟩

lemma getD_range_map {β : Type} (f : Nat → β) (dflt : β) {i n : Nat} (h : i < n) :
    ((List.range n).map f).getD i dflt = f i := by
  rw [List.getD_eq_getElem?_getD, List.getElem?_map, List.getElem?_range h]
  rfl

lemma readGrid2_tabulate2 (p : Grid2) {r c : Nat} (hr : r < 9) (hc : c < 9) :
    readGrid2 (tabulate2 p) r c = p r c := by
  simp only [readGrid2, tabulate2]
  rw [getD_range_map _ _ hr, getD_range_map _ _ hc]

lemma readGrid3_tabulate3 (o : Grid3) {r c d : Nat} (hr : r < 9) (hc : c < 9)
    (hd : d < 9) : readGrid3 (tabulate3 o) r c d = o r c d := by
  simp only [readGrid3, tabulate3]
  rw [getD_range_map _ _ hr, getD_range_map _ _ hc, getD_range_map _ _ hd]

lemma charByte_ofNat {k : Nat} (hk : k ≤ 9) :
    charByte (Char.ofNat (48 + k)) = some k := by
  interval_cases k <;> decide

lemma argmaxD_oneHot {o : Grid3} {r c d0 : Nat} (hd0 : d0 < 9)
    (h1 : o r c d0 = 1) (h0 : ∀ d, d < 9 → d ≠ d0 → o r c d = 0) :
    argmaxD o r c = d0 := by
  have e0 := fun h => h0 0 (by omega) h
  have e1 := fun h => h0 1 (by omega) h
  have e2 := fun h => h0 2 (by omega) h
  have e3 := fun h => h0 3 (by omega) h
  have e4 := fun h => h0 4 (by omega) h
  have e5 := fun h => h0 5 (by omega) h
  have e6 := fun h => h0 6 (by omega) h
  have e7 := fun h => h0 7 (by omega) h
  have e8 := fun h => h0 8 (by omega) h
  interval_cases d0 <;>
    simp_all [argmaxD, show List.range 9 = [0, 1, 2, 3, 4, 5, 6, 7, 8] from rfl]

/-- C9: printing a fully-known one-hot cube with `_np_puzzle_to_string` and
parsing the 81 digits back with `_string_to_np_puzzle` succeeds and returns
the same grid, in the 2D digit representation (`argmax + 1` per cell) and in
the one-hot 3D representation. -/
theorem c9_roundtrip (o : Grid3) (h : OneHotGrid o) :
    ∃ pm om, string_to_np_puzzle (np_puzzle_to_string o) = Except.ok (pm, om) ∧
      (∀ r, r < 9 → ∀ c, c < 9 → readGrid2 pm r c = argmaxD o r c + 1) ∧
      (∀ r, r < 9 → ∀ c, c < 9 → ∀ d, d < 9 → readGrid3 om r c d = o r c d) := by
  have hdig : ∀ r, r < 9 → ∀ c, c < 9 → ∃ d0, d0 < 9 ∧ argmaxD o r c = d0 ∧
      o r c d0 = 1 ∧ ∀ d, d < 9 → d ≠ d0 → o r c d = 0 := by
    intro r hr c hc
    obtain ⟨d0, hd0, h1, h0⟩ := h r hr c hc
    exact ⟨d0, hd0, argmaxD_oneHot hd0 h1 h0, h1, h0⟩
  have harglt : ∀ r, r < 9 → ∀ c, c < 9 → argmaxD o r c < 9 := by
    intro r hr c hc
    obtain ⟨d0, hd0, heq, _, _⟩ := hdig r hr c hc
    omega
  have hchar : ∀ i, i < 81 → (np_puzzle_to_string o).getD i '0'
      = Char.ofNat (48 + (argmaxD o (i / 9) (i % 9) + 1)) := by
    intro i hi
    simp only [np_puzzle_to_string]
    rw [getD_range_map _ _ hi]
  have hlen : (np_puzzle_to_string o).length = 81 := by
    simp [np_puzzle_to_string]
  have hany : ((np_puzzle_to_string o).any fun ch => (charByte ch).isNone) = false := by
    rw [List.any_eq_false]
    intro ch hch
    simp only [np_puzzle_to_string, List.mem_map, List.mem_range] at hch
    obtain ⟨i, hi, rfl⟩ := hch
    have h9a : i / 9 < 9 := by omega
    have h9b : i % 9 < 9 := by omega
    have := harglt (i / 9) h9a (i % 9) h9b
    rw [charByte_ofNat (by omega)]
    simp
  have hp2 : ∀ r, r < 9 → ∀ c, c < 9 →
      parsedPuzzle2d (np_puzzle_to_string o) r c = argmaxD o r c + 1 := by
    intro r hr c hc
    have hidx : 9 * r + c < 81 := by omega
    simp only [parsedPuzzle2d]
    rw [hchar _ hidx]
    have hdiv : (9 * r + c) / 9 = r := by omega
    have hmod : (9 * r + c) % 9 = c := by omega
    rw [hdiv, hmod, charByte_ofNat (by have := harglt r hr c hc; omega)]
    rfl
  refine ⟨tabulate2 (parsedPuzzle2d (np_puzzle_to_string o)),
    tabulate3 (optionsOfPuzzle
      (readGrid2 (tabulate2 (parsedPuzzle2d (np_puzzle_to_string o))))),
    ?_, ?_, ?_⟩
  · simp only [string_to_np_puzzle, hany, hlen]
    simp
  · intro r hr c hc
    rw [readGrid2_tabulate2 _ hr hc, hp2 r hr c hc]
  · intro r hr c hc d hd
    rw [readGrid3_tabulate3 _ hr hc hd]
    simp only [optionsOfPuzzle]
    rw [readGrid2_tabulate2 _ hr hc, hp2 r hr c hc]
    obtain ⟨d0, hd0, heq, h1, h0⟩ := hdig r hr c hc
    by_cases hdd : d = d0
    · subst hdd
      rw [heq]
      simp [h1]
    · rw [heq]
      have : ¬ (d + 1 = d0 + 1) := by omega
      simp [this, h0 d hd hdd]

/-- Witness for C9 at the concrete one-hot cube `gEx`. -/
theorem c9_roundtrip_witness :
    ∃ pm om, string_to_np_puzzle (np_puzzle_to_string gEx) = Except.ok (pm, om) ∧
      (∀ r, r < 9 → ∀ c, c < 9 → readGrid2 pm r c = argmaxD gEx r c + 1) ∧
      (∀ r, r < 9 → ∀ c, c < 9 → ∀ d, d < 9 → readGrid3 om r c d = gEx r c d) :=
  c9_roundtrip gEx (by decide)

/-- C5 counterexample: the accepted character set is not `{0-9, '.'}` on
either side — an all-dots input is rejected by the byte conversion with the
same `ValueError` as any malformed character, while the all-zeros input
parses, and so does an input of Arabic-Indic digit threes, since `int()`
accepts every Unicode decimal digit. -/
theorem c5_dot_counterexample :
    string_to_np_puzzle (List.replicate 81 '.') = Except.error fmtCharErrMsg ∧
      isOkB (string_to_np_puzzle zeros81) = true ∧
      charByte '٣' = some 3 ∧
      isOkB (string_to_np_puzzle (List.replicate 81 '٣')) = true :=
  ⟨rfl, rfl, rfl, rfl⟩

/-- C5 (amended): an input whose length is not 81 or that holds any
character outside the Unicode decimal digits (`'.'` included) makes parsing
— and hence `solve` — fail with the `ValueError`; in an accepted input `'0'`
denotes an unknown cell, whose candidate row is entirely ones. -/
theorem c5_format_errors :
    (∀ (s : List Char) (mi : Int),
        (s.length ≠ 81 ∨
          ∃ ch ∈ s, ∀ b ∈ ndRangeStarts, ¬ (b ≤ ch.toNat ∧ ch.toNat < b + 10)) →
        (∃ m, string_to_np_puzzle s = Except.error m) ∧
          ∃ m, solve s mi = PyResult.exc m)
    ∧ (∀ (s : List Char) (pm : Mat2) (om : Mat3),
        string_to_np_puzzle s = Except.ok (pm, om) →
        ∀ r, r < 9 → ∀ c, c < 9 → s.getD (9 * r + c) 'x' = '0' →
          readGrid2 pm r c = 0 ∧ ∀ d, d < 9 → readGrid3 om r c d = 1) := by
  constructor
  · intro s mi hbad
    by_cases hany : (s.any fun ch => (charByte ch).isNone) = true
    · have hp : string_to_np_puzzle s = Except.error fmtCharErrMsg := by
        simp [string_to_np_puzzle, hany]
      exact ⟨⟨fmtCharErrMsg, hp⟩, ⟨fmtCharErrMsg, by simp [solve, hp]⟩⟩
    · have hanyF : (s.any fun ch => (charByte ch).isNone) = false :=
        Bool.eq_false_iff.mpr hany
      rcases hbad with hlen | ⟨ch, hch, hbadch⟩
      · have hp : string_to_np_puzzle s = Except.error fmtLenErrMsg := by
          simp [string_to_np_puzzle, hanyF, hlen]
        exact ⟨⟨fmtLenErrMsg, hp⟩, ⟨fmtLenErrMsg, by simp [solve, hp]⟩⟩
      · exfalso
        apply hany
        rw [List.any_eq_true]
        refine ⟨ch, hch, ?_⟩
        have hfind : ndRangeStarts.find?
            (fun b => decide (b ≤ ch.toNat) && decide (ch.toNat < b + 10)) = none := by
          rw [List.find?_eq_none]
          intro b hb
          simpa using hbadch b hb
        simp [charByte, hfind]
  · intro s pm om hok r hr c hc h0ch
    have hx := hok
    simp only [string_to_np_puzzle] at hx
    split_ifs at hx with h1 h2
    injection hx with hx2
    injection hx2 with hpm hom
    subst hpm
    subst hom
    have hlen : s.length = 81 := by omega
    have hlt : 9 * r + c < s.length := by omega
    have hsame : s.getD (9 * r + c) '0' = s.getD (9 * r + c) 'x' := by
      rw [List.getD_eq_getElem?_getD, List.getD_eq_getElem?_getD,
        List.getElem?_eq_getElem hlt]
      rfl
    have hp0 : parsedPuzzle2d s r c = 0 := by
      simp only [parsedPuzzle2d]
      rw [hsame, h0ch]
      rfl
    constructor
    · rw [readGrid2_tabulate2 _ hr hc, hp0]
    · intro d hd
      rw [readGrid3_tabulate3 _ hr hc hd]
      simp only [optionsOfPuzzle]
      rw [readGrid2_tabulate2 _ hr hc, hp0]
      rfl

/-- Witness for the amended C5: the 82-character input fails, and in the
parsed all-blank input cell `(0, 0)` is unknown with all nine candidates. -/
theorem c5_format_errors_witness :
    (∃ m, string_to_np_puzzle (List.replicate 82 '0') = Except.error m) ∧
      (∃ m, solve (List.replicate 82 '0') 10000000 = PyResult.exc m) ∧
      readGrid2 zeros81pm 0 0 = 0 ∧ ∀ d, d < 9 → readGrid3 zeros81om 0 0 d = 1 :=
  ⟨(c5_format_errors.1 (List.replicate 82 '0') 10000000 (Or.inl (by decide))).1,
    (c5_format_errors.1 (List.replicate 82 '0') 10000000 (Or.inl (by decide))).2,
    (c5_format_errors.2 zeros81 zeros81pm zeros81om rfl 0 (by decide) 0 (by decide)
      (by decide)).1,
    (c5_format_errors.2 zeros81 zeros81pm zeros81om rfl 0 (by decide) 0 (by decide)
      (by decide)).2⟩

lemma pyProduct_cons {α : Type} (l : List α) (ls : List (List α)) :
    pyProduct (l :: ls) = l.flatMap fun x => (pyProduct ls).map fun t => x :: t := by
  cases l <;> simp [pyProduct]

lemma pyProduct_ne_nil {α : Type} (ls : List (List α)) (hall : ∀ l ∈ ls, l ≠ []) :
    pyProduct ls ≠ [] := by
  induction ls with
  | nil => simp [pyProduct]
  | cons l ls ih =>
    have hl : l ≠ [] := hall l (by simp)
    have hrest : pyProduct ls ≠ [] := ih (fun l2 h2 => hall l2 (by simp [h2]))
    obtain ⟨x, hx⟩ := List.exists_mem_of_ne_nil l hl
    obtain ⟨t, ht⟩ := List.exists_mem_of_ne_nil (pyProduct ls) hrest
    have hmem : (x :: t) ∈ pyProduct (l :: ls) := by
      rw [pyProduct_cons, List.mem_flatMap]
      exact ⟨x, hx, List.mem_map.mpr ⟨t, ht, rfl⟩⟩
    exact List.ne_nil_of_mem hmem

lemma mem_pyProduct {α : Type} :
    ∀ {ls : List (List α)} {comb : List α}, comb ∈ pyProduct ls →
      List.Forall₂ (fun x l => x ∈ l) comb ls := by
  intro ls
  induction ls with
  | nil =>
    intro comb h
    simp [pyProduct] at h
    subst h
    exact List.Forall₂.nil
  | cons l ls ih =>
    intro comb h
    rw [pyProduct_cons, List.mem_flatMap] at h
    obtain ⟨x, hx, hmap⟩ := h
    rw [List.mem_map] at hmap
    obtain ⟨t, ht, rfl⟩ := hmap
    exact List.Forall₂.cons hx (ih ht)

lemma diffPairs_cons {α : Type} [DecidableEq α] (x y : α) (xs ys : List α) :
    diffPairs (x :: xs) (y :: ys)
      = if y ≠ x then (x, y) :: diffPairs xs ys else diffPairs xs ys := by
  simp only [diffPairs, List.zip_cons_cons, List.filterMap_cons]
  by_cases h : y = x <;> simp [h]

lemma diffPairs_eq_nil {α : Type} [DecidableEq α] :
    ∀ {xs ys : List α}, xs.length = ys.length → diffPairs xs ys = [] → xs = ys := by
  intro xs
  induction xs with
  | nil =>
    intro ys hlen _
    cases ys with
    | nil => rfl
    | cons y ys => simp at hlen
  | cons x xs ih =>
    intro ys hlen hnil
    cases ys with
    | nil => simp at hlen
    | cons y ys =>
      rw [diffPairs_cons] at hnil
      by_cases hxy : y = x
      · subst hxy
        simp only [ne_eq, not_true_eq_false, if_false] at hnil
        have : xs = ys := ih (by simpa using hlen) hnil
        rw [this]
      · simp [hxy] at hnil

lemma diffPairs_mem {α : Type} [DecidableEq α] :
    ∀ (ls : List (List α)) (prev comb : List α),
      List.Forall₂ (fun x l => x ∈ l) prev ls →
      List.Forall₂ (fun x l => x ∈ l) comb ls →
      ∀ pc ∈ diffPairs prev comb, ∃ l ∈ ls, pc.1 ∈ l ∧ pc.2 ∈ l := by
  intro ls
  induction ls with
  | nil =>
    intro prev comb h1 h2 pc hpc
    cases h1
    cases h2
    simp [diffPairs] at hpc
  | cons l ls ih =>
    intro prev comb h1 h2 pc hpc
    cases h1 with
    | cons hx h1x =>
      cases h2 with
      | cons hy h2y =>
        rename_i x xs y ys
        rw [diffPairs_cons] at hpc
        by_cases hxy : y = x
        · subst hxy
          simp only [ne_eq, not_true_eq_false, if_false] at hpc
          obtain ⟨l2, hl2, hm1, hm2⟩ := ih xs ys h1x h2y pc hpc
          exact ⟨l2, List.mem_cons_of_mem _ hl2, hm1, hm2⟩
        · simp only [ne_eq, hxy, not_false_eq_true, if_true] at hpc
          rcases List.mem_cons.mp hpc with rfl | hpc2
          · exact ⟨l, List.mem_cons_self _ _, hx, hy⟩
          · obtain ⟨l2, hl2, hm1, hm2⟩ := ih xs ys h1x h2y pc hpc2
            exact ⟨l2, List.mem_cons_of_mem _ hl2, hm1, hm2⟩

lemma applyDelta_diffPairs {α : Type} [DecidableEq α] :
    ∀ (ls : List (List α)) (prev comb : List α),
      ls.Pairwise (fun l1 l2 => ∀ x ∈ l1, x ∉ l2) →
      List.Forall₂ (fun x l => x ∈ l) prev ls →
      List.Forall₂ (fun x l => x ∈ l) comb ls →
      applyDelta prev (diffPairs prev comb) = comb := by
  intro ls
  induction ls with
  | nil =>
    intro prev comb _ h1 h2
    cases h1
    cases h2
    rfl
  | cons l ls ih =>
    intro prev comb hpw h1 h2
    cases h1 with
    | cons hx h1x =>
      cases h2 with
      | cons hy h2y =>
        rename_i x xs y ys
        rw [List.pairwise_cons] at hpw
        obtain ⟨hhead, htail⟩ := hpw
        rw [diffPairs_cons]
        by_cases hxy : y = x
        · subst hxy
          simp only [ne_eq, not_true_eq_false, if_false]
          cases hD : diffPairs xs ys with
          | nil =>
            have hlen : xs.length = ys.length := by
              rw [List.Forall₂.length_eq h1x, List.Forall₂.length_eq h2y]
            have hxy2 : xs = ys := diffPairs_eq_nil hlen hD
            subst hxy2
            rfl
          | cons pc ds =>
            obtain ⟨l2, hl2, hm1, _⟩ :=
              diffPairs_mem ls xs ys h1x h2y pc (by rw [hD]; exact List.mem_cons_self _ _)
            have hne : y ≠ pc.1 := by
              intro hEq
              exact (hhead l2 hl2 y hx) (hEq ▸ hm1)
            obtain ⟨p, c⟩ := pc
            simp only [applyDelta, if_neg (by simpa using hne)]
            rw [← hD]
            rw [ih xs ys htail h1x h2y]
        · simp only [ne_eq, hxy, not_false_eq_true, if_true]
          have hrec := ih xs ys htail h1x h2y
          simp [applyDelta, hrec]

/-- C7: on a non-empty family of non-empty, pairwise-disjoint per-cell
candidate lists (disjointness holds in `solve`, where every candidate value
carries its own cell coordinates), the generator's first yield is the full
initial assignment with no retraction, each later yield holds exactly the
(previous, current) pairs at the positions where the combination differs
from its immediate predecessor (`deltasFrom`), and replaying the deltas
reproduces the Cartesian-product enumeration in order. -/
theorem c7_delta_generator {α : Type} [DecidableEq α] (ls : List (List α))
    (hne : ls ≠ []) (hall : ∀ l ∈ ls, l ≠ [])
    (hdisj : ls.Pairwise fun l1 l2 => ∀ x ∈ l1, x ∉ l2) :
    ∃ c0 rest, pyProduct ls = c0 :: rest ∧
      uniqueCombinations ls
        = some (c0.map fun x => ((none : Option α), x), deltasFrom c0 rest) ∧
      List.Chain' (fun prev comb => applyDelta prev (diffPairs prev comb) = comb)
        (pyProduct ls) := by
  obtain ⟨c0, rest, hprod⟩ : ∃ c0 rest, pyProduct ls = c0 :: rest := by
    cases hP : pyProduct ls with
    | nil => exact absurd hP (pyProduct_ne_nil ls hall)
    | cons a b => exact ⟨a, b, rfl⟩
  refine ⟨c0, rest, hprod, ?_, ?_⟩
  · simp [uniqueCombinations, hprod]
  · apply List.Pairwise.chain'
    apply List.pairwise_of_forall_mem_list
    intro a ha b hb
    exact applyDelta_diffPairs ls a b hdisj (mem_pyProduct ha) (mem_pyProduct hb)

/-- Witness for C7 on a concrete two-cell family. -/
theorem c7_delta_generator_witness :
    ∃ c0 rest, pyProduct [[0, 1], [2, 3]] = c0 :: rest ∧
      uniqueCombinations [[0, 1], [2, 3]]
        = some (c0.map fun x => ((none : Option Nat), x), deltasFrom c0 rest) ∧
      List.Chain' (fun prev comb => applyDelta prev (diffPairs prev comb) = comb)
        (pyProduct [[0, 1], [2, 3]]) :=
  c7_delta_generator [[0, 1], [2, 3]] (by decide) (by decide) (by decide)

lemma processCell_le {o acc : Grid3} (hle : ∀ x y z, acc x y z ≤ o x y z)
    {r c d : Nat} (hbit : o r c d = 1) :
    ∀ x y z, processCell acc r c d x y z ≤ o x y z := by
  intro x y z
  simp only [processCell]
  split_ifs with h1 h2 h3
  · obtain ⟨hx, hy⟩ := h2
    subst h1
    subst hx
    subst hy
    omega
  · exact Nat.zero_le _
  · exact hle x y z
  · exact hle x y z

lemma foldl_processCell_le (L : List Cell3) (o : Grid3)
    (hL : ∀ t ∈ L, o t.1 t.2.1 (t.2.2 - 1) = 1) :
    ∀ acc, (∀ x y z, acc x y z ≤ o x y z) →
      ∀ x y z,
        (L.foldl (fun a t => processCell a t.1 t.2.1 (t.2.2 - 1)) acc) x y z
          ≤ o x y z := by
  induction L with
  | nil => intro acc hacc x y z; exact hacc x y z
  | cons t L ih =>
    intro acc hacc x y z
    simp only [List.foldl_cons]
    exact ih (fun t2 ht2 => hL t2 (List.mem_cons_of_mem _ ht2)) _
      (processCell_le hacc (hL t (List.mem_cons_self _ _))) x y z

lemma mem_knownCells {p : Grid2} {t : Cell3} (ht : t ∈ knownCells p) :
    ∃ r, r < 9 ∧ ∃ c, c < 9 ∧ p r c ≠ 0 ∧ t = (r, c, p r c) := by
  simp only [knownCells, List.mem_flatMap, List.mem_range, List.mem_filterMap] at ht
  obtain ⟨r, hr, c, hc, hsome⟩ := ht
  by_cases h : p r c ≠ 0
  · rw [if_pos h] at hsome
    injection hsome with hval
    exact ⟨r, hr, c, hc, h, hval.symm⟩
  · rw [if_neg h] at hsome
    cases hsome

/-- C8: candidate-set sizes never increase.  A full propagation pass over a
state in which every known cell's own bit is set (as `puzzle_2d` guarantees)
only clears bits, so each cell's count is bounded by its previous count; the
search setup narrows an enumerated cell to a singleton (its bit was among
the candidates); and a later delta, which retracts the set bit and sets a
previously clear one in the same cell, keeps the count unchanged. -/
theorem c8_monotone :
    (∀ (o : Grid3) (p : Grid2),
        (∀ r, r < 9 → ∀ c, c < 9 → p r c ≠ 0 → o r c (p r c - 1) = 1) →
        ∀ r c, cellSum (propagatePass o p) r c ≤ cellSum o r c)
    ∧ (∀ (o : Grid3) (r c d : Nat), d < 9 → o r c d = 1 →
        cellSum (setCellOneHot o (r, c, d)) r c = 1 ∧ 1 ≤ cellSum o r c)
    ∧ (∀ (o : Grid3) (r c dp dn : Nat), dp < 9 → dn < 9 → dp ≠ dn →
        o r c dp = 1 → o r c dn = 0 →
        cellSum (applyChanges o [((r, c, dp), (r, c, dn))]) r c = cellSum o r c) := by
  refine ⟨?_, ?_, ?_⟩
  · intro o p hinv r c
    have hL : ∀ t ∈ knownCells p, o t.1 t.2.1 (t.2.2 - 1) = 1 := by
      intro t ht
      obtain ⟨r2, hr2, c2, hc2, hne2, rfl⟩ := mem_knownCells ht
      exact hinv r2 hr2 c2 hc2 hne2
    have hpt := foldl_processCell_le (knownCells p) o hL o (fun x y z => le_refl _)
    have a0 := hpt r c 0
    have a1 := hpt r c 1
    have a2 := hpt r c 2
    have a3 := hpt r c 3
    have a4 := hpt r c 4
    have a5 := hpt r c 5
    have a6 := hpt r c 6
    have a7 := hpt r c 7
    have a8 := hpt r c 8
    simp only [cellSum, sum9, propagatePass]
    omega
  · intro o r c d hd hbit
    constructor
    · simp only [cellSum, sum9, setCellOneHot]
      interval_cases d <;> simp
    · simp only [cellSum, sum9]
      interval_cases d <;> omega
  · intro o r c dp dn hdp hdn hne h1 h0
    simp only [applyChanges, List.foldl_cons, List.foldl_nil, writeBit, cellSum, sum9]
    interval_cases dp <;> interval_cases dn <;> simp_all <;> omega

/-- Witness for C8 at concrete cubes. -/
theorem c8_monotone_witness :
    cellSum (propagatePass onesGrid pOneKnown) 0 1 ≤ cellSum onesGrid 0 1 ∧
      (cellSum (setCellOneHot onesGrid (0, 0, 3)) 0 0 = 1 ∧ 1 ≤ cellSum onesGrid 0 0) ∧
      cellSum (applyChanges gEx [((0, 0, 0), (0, 0, 1))]) 0 0 = cellSum gEx 0 0 :=
  ⟨c8_monotone.1 onesGrid pOneKnown (by decide) 0 1,
    c8_monotone.2.1 onesGrid 0 0 3 (by decide) (by decide),
    c8_monotone.2.2 gEx 0 0 0 1 (by decide) (by decide) (by decide) (by decide)
      (by decide)⟩

/-- C2: on the unsatisfiable input holding two `1`s in row 0, propagation
empties cell `(0, 0)`'s candidate set, yet `solve` neither detects the
contradiction nor returns a negative result: the zero machine count slips
past the budget gate, and while building `options_idx` for the search the
`np.nditer` over the emptied cell's zero-sized `np.where` result raises the
uncaught `ValueError`. -/
theorem c2_contradiction_not_detected :
    postPropCell c2input 0 0 = 0 ∧ postPropCount c2input = 0 ∧
      solve c2input 10000000 = PyResult.exc ndIterErrMsg :=
  ⟨rfl, rfl, rfl⟩

/-- C3: on the unsatisfiable input holding two `2`s in row 5 (the spec's
Example 5 shape), there is no valid completion to find, and instead of
reporting exhaustion as a negative result `solve` crashes: cell `(5, 0)` is
emptied by propagation and the `options_idx` construction raises the
`np.nditer` zero-sized-operand `ValueError`. -/
theorem c3_exhaustion_crashes :
    postPropCell c3input 5 0 = 0 ∧ postPropCount c3input = 0 ∧
      solve c3input 10000000 = PyResult.exc ndIterErrMsg :=
  ⟨rfl, rfl, rfl⟩

set_option maxHeartbeats 4000000 in
/-- C4 counterexample: on a complete valid grid with `max_iterations = 1`
the post-propagation count equals 1, which is not below `max_iterations`,
yet `solve` does not abort: the `num_possibilities == 1` early return runs
before the budget gate and yields the solved string. -/
theorem c4_budget_counterexample :
    postPropCount solvedChars = 1 ∧
      solve solvedChars 1 = PyResult.ret (some solvedChars) :=
  ⟨rfl, rfl⟩

/-- C4 (amended): whenever the machine combination count after propagation
reaches `max_iterations` and is not the already-determined count 1, `solve`
aborts before enumerating any candidate assignment and returns `None`. -/
theorem c4_budget_gate (o : Mat3) (p : Mat2) (mi : Int)
    (hge : machineCountI (readGrid3 o) ≥ mi)
    (hne : machineCountI (readGrid3 o) ≠ 1) :
    solveCore o p mi = PyResult.ret none := by
  simp only [solveCore, if_neg hne]
  rw [if_pos (Or.inl hge)]

/-- Witness for the amended C4: a state with two candidates left and
`max_iterations = 1` aborts with `None`. -/
theorem c4_budget_gate_witness :
    machineCountI (readGrid3 (tabulate3 gateGrid)) = 2 ∧
      solveCore (tabulate3 gateGrid) (tabulate2 pZero) 1 = PyResult.ret none :=
  ⟨by decide,
    c4_budget_gate (tabulate3 gateGrid) (tabulate2 pZero) 1 (by decide) (by decide)⟩

/-- C10 counterexample: the enumeration branch is not entered only on
accurate positive counts — on the unsatisfiable input holding two `3`s in
column 0 the post-propagation count is 0 (neither positive nor aborted), so
the gate falls through into the enumeration branch, whose very first step,
the `options_idx` construction, raises the `np.nditer` zero-sized-operand
`ValueError` on the emptied cell `(0, 0)`. -/
theorem c10_zero_count_enters_search :
    postPropCount c10input = 0 ∧ solve c10input 10000000 = PyResult.exc ndIterErrMsg :=
  ⟨rfl, rfl⟩

/-- C10 (amended): the int64 product can wrap negative, and `solve` treats
every negative machine count exactly like a budget overrun, aborting with
`None` before any enumeration; a count at or above `max_iterations` likewise
aborts unless it equals 1, so the enumeration branch runs only for machine
counts in `[0, max_iterations)` other than 1 — which may be zero or, after
wraparound, inaccurate. -/
theorem c10_wrap_gate :
    (∀ (o : Mat3) (p : Mat2) (mi : Int), machineCountI (readGrid3 o) < 0 →
        solveCore o p mi = PyResult.ret none)
    ∧ ∀ (o : Mat3) (p : Mat2) (mi : Int), machineCountI (readGrid3 o) ≥ mi →
        solveCore o p mi = PyResult.ret none ∨ machineCountI (readGrid3 o) = 1 := by
  constructor
  · intro o p mi hneg
    have hne : machineCountI (readGrid3 o) ≠ 1 := by omega
    simp only [solveCore, if_neg hne]
    rw [if_pos (Or.inr hneg)]
  · intro o p mi hge
    by_cases h1 : machineCountI (readGrid3 o) = 1
    · exact Or.inr h1
    · left
      simp only [solveCore, if_neg h1]
      rw [if_pos (Or.inl hge)]

/-- Witness for the amended C10: 21 cells of 8 candidates give the exact
count `8^21 = 2^63`, which the int64 product wraps to `-2^63`; the state is
aborted with `None`. -/
theorem c10_wrap_gate_witness :
    prodCellSums (readGrid3 (tabulate3 wrapGrid)) = 2 ^ 63 ∧
      machineCountI (readGrid3 (tabulate3 wrapGrid)) = -(2 ^ 63) ∧
      solveCore (tabulate3 wrapGrid) (tabulate2 pZero) 10000000 = PyResult.ret none :=
  ⟨by decide, by decide,
    c10_wrap_gate.1 (tabulate3 wrapGrid) (tabulate2 pZero) 10000000 (by decide)⟩
